import Mathlib

/-!
Verification of the origami repository: the `OrigamiControlValueAccessor`
form adapter (src/forms/src/value-accessor.ts) and the build-config
resolver helpers (src/bin/lib/polyfill/util.ts), as a shallow embedding.

JavaScript values are modelled by `JSVal` (numbers as integers; objects and
arrays as opaque references whose strict equality is reference equality).
A custom element is modelled by `Element`: which of the relevant properties
it exposes (`has`, the JS `in` operator), the currently observable value of
each property (`get`), and the semantics of assigning to a property
(`setFn`): a property setter may store the assigned value unchanged (a
plain data property), silently keep the old value, coerce to some other
value, or throw.  `setFn p old v = none` models a throwing assignment;
`some w` models the observable value becoming `w`.
-/

/-- A JavaScript value.  `obj id` is an opaque object/array reference;
strict equality (`===`) on references is identity of `id`. -/
inductive JSVal where
  | undef
  | null
  | bool (b : Bool)
  | num (n : Int)
  | str (s : String)
  | obj (id : Nat)
deriving DecidableEq, Repr

/-- The element properties the value accessor reads or writes. -/
inductive PropName where
  | checked
  | selected
  | selectedItem
  | selectedValues
  | selectedItems
  | value
  | multi
deriving DecidableEq, Repr

/-- A custom element bound to the value accessor.  `has p` is the JS
`p in element` test; `get p` is the observable value of property `p`
(`JSVal.undef` for an absent property); `setFn p old v` is the outcome of
the assignment `element[p] = v` when the observable value is `old`:
`none` models the setter throwing, `some w` models the observable value
becoming `w`. -/
structure Element where
  has : PropName → Bool
  get : PropName → JSVal
  setFn : PropName → JSVal → JSVal → Option JSVal

/-- The observable state after property `p` holds value `w` (assignment to
a property also makes it present). -/
def Element.update (el : Element) (p : PropName) (w : JSVal) : Element :=
  { el with
    has := fun q => if q = p then true else el.has q
    get := fun q => if q = p then w else el.get q }

/-- The assignment `element[p] = v`: `none` when the setter throws,
otherwise the element with the setter's stored value. -/
def Element.assign (el : Element) (p : PropName) (v : JSVal) : Option Element :=
  (el.setFn p (el.get p) v).map (el.update p)

/-- Source `isPropertyDefined(element, property)`: the property is defined
somewhere in the element's prototype chain (`property in element`). -/
def isPropertyDefined (el : Element) (p : PropName) : Bool :=
  el.has p

/-- Source `isCheckedElement(element)`: the element is checkbox-like. -/
def isCheckedElement (el : Element) : Bool :=
  isPropertyDefined el .checked

/-- Source `isSelectable(element)`: the element is selectable-like. -/
def isSelectable (el : Element) : Bool :=
  isPropertyDefined el .selected || isPropertyDefined el .selectedItem

/-- Source `isMultiSelectable(element)`: the element declares `multi === true`
and... the source tests `selectedValues` twice (value-accessor.ts lines
311-312); `selectedItems` is never tested.  Embedded faithfully. -/
def isMultiSelectable (el : Element) : Bool :=
  (el.get .multi == JSVal.bool true) &&
    (isPropertyDefined el .selectedValues ||
      isPropertyDefined el .selectedValues)

/-- The multi-selectable check as the spec words it ("exposes either
multi-select property"), for comparison with `isMultiSelectable`. -/
def isMultiSelectableSpec (el : Element) : Bool :=
  (el.get .multi == JSVal.bool true) &&
    (isPropertyDefined el .selectedValues ||
      isPropertyDefined el .selectedItems)

/-- Source `valueProp` of `getSelectableProperty`: the item-property. -/
def valuePropOf (el : Element) : PropName :=
  if isMultiSelectable el then .selectedItems else .selectedItem

/-- Source `indexProp` of `getSelectableProperty`: the index-property. -/
def indexPropOf (el : Element) : PropName :=
  if isMultiSelectable el then .selectedValues else .selected

/-- Adapter state: the re-entrancy guard `isWritingValue` and the memoized
decision `useSelectableValueProp` (`none` is JS `undefined`: undecided). -/
structure AccState where
  isWritingValue : Bool
  useSelectableValueProp : Option Bool
deriving DecidableEq, Repr

/-- Source `typeof value !== 'undefined' && value !== null`. -/
def isConcreteValue (v : JSVal) : Bool :=
  !(v == JSVal.undef) && !(v == JSVal.null)

/-- The speculative probe of `getSelectableProperty` (value-accessor.ts
lines 359-372): remember the previous item-property value, attempt to
assign `value` to it (an exception is caught and leaves the element
unchanged), decide from the strict-equality read-back, then assign the
previous value back.  The restore assignment is outside the `try`, so an
exception from it propagates (`Except.error`), after the decision has
already been stored in `useSelectableValueProp`. -/
def probeSelectableProperty (st : AccState) (el : Element) (value : JSVal) :
    Except (AccState × Element) (AccState × Element × Option PropName) :=
  let vp := valuePropOf el
  let previousValue := el.get vp
  let el1 := (el.assign vp value).getD el
  let decision := el1.get vp == value
  let st1 := { st with useSelectableValueProp := some decision }
  match el1.assign vp previousValue with
  | none => .error (st1, el1)
  | some el2 => .ok (st1, el2, some (if decision then vp else indexPropOf el))

/-- The element state after the probe's speculative (caught) assignment. -/
def probeAfterSet (el : Element) (value : JSVal) : Element :=
  (el.assign (valuePropOf el) value).getD el

/-- The probe's decision: the strict equality `element[valueProp] === value`
of the post-assignment read-back with the assigned value. -/
def probeDecision (el : Element) (value : JSVal) : Bool :=
  (probeAfterSet el value).get (valuePropOf el) == value

/-- Source `getSelectableProperty(element, value?)` (value-accessor.ts lines
346-379).  Returns the updated adapter state, the element (the probe may
have mutated it), and the chosen property (`none` is the JS `undefined`
return: undecided).  `Except.error` models an uncaught exception from the
probe's restore assignment, carrying the mutated state and element. -/
def getSelectableProperty (st : AccState) (el : Element) (value : JSVal) :
    Except (AccState × Element) (AccState × Element × Option PropName) :=
  match st.useSelectableValueProp with
  | some b =>
      .ok (st, el, some (if b then valuePropOf el else indexPropOf el))
  | none =>
      if el.has (valuePropOf el) && !el.has (indexPropOf el) then
        .ok ({ st with useSelectableValueProp := some true }, el,
          some (valuePropOf el))
      else if !el.has (valuePropOf el) && el.has (indexPropOf el) then
        .ok ({ st with useSelectableValueProp := some false }, el,
          some (indexPropOf el))
      else if isConcreteValue value then
        probeSelectableProperty st el value
      else
        .ok (st, el, none)

/-- JS `Boolean(value)` (truthiness; NaN is not modelled since `JSVal`
numbers are integers). -/
def jsTruthy (v : JSVal) : Bool :=
  match v with
  | .undef => false
  | .null => false
  | .bool b => b
  | .num n => !(n == 0)
  | .str s => !(s == "")
  | .obj _ => true

/-- Source `super.writeValue(value)`: `DefaultValueAccessor` of `@angular/forms`
(a third-party dependency) normalizes `null`/`undefined` to the empty
string and sets the element's `value` property. -/
def superWriteValue (el : Element) (value : JSVal) : Option Element :=
  el.assign .value
    (if value == JSVal.undef || value == JSVal.null then .str "" else value)

/-- Source `writeValue(value)` (value-accessor.ts lines 212-227): raise the
`isWritingValue` guard, write to the property picked by the element's
classification (the selectable branch writes nothing when
`getSelectableProperty` returns undecided), then clear the guard.
`Except.error` models an uncaught exception (from the probe's restore
assignment or a throwing property setter); on that path the line clearing
the guard is never reached, so the carried state still has the guard set. -/
def writeValue (st : AccState) (el : Element) (value : JSVal) :
    Except (AccState × Element) (AccState × Element) :=
  let st0 := { st with isWritingValue := true }
  if isMultiSelectable el || isSelectable el then
    match getSelectableProperty st0 el value with
    | .error (st1, el1) => .error (st1, el1)
    | .ok (st1, el1, some property) =>
        match el1.assign property value with
        | none => .error (st1, el1)
        | some el2 => .ok ({ st1 with isWritingValue := false }, el2)
    | .ok (st1, el1, none) => .ok ({ st1 with isWritingValue := false }, el1)
  else if isCheckedElement el then
    match el.assign .checked (.bool (jsTruthy value)) with
    | none => .error (st0, el)
    | some el2 => .ok ({ st0 with isWritingValue := false }, el2)
  else
    match superWriteValue el value with
    | none => .error (st0, el)
    | some el2 => .ok ({ st0 with isWritingValue := false }, el2)

/-- The six change events `onChangedEvent` is bound to. -/
inductive ChangeEventType where
  | selectedItemsChanged
  | selectedItemChanged
  | selectedValuesChanged
  | selectedChanged
  | checkedChanged
  | valueChanged
deriving DecidableEq, Repr

/-- Source `element[property]` where `property` came from
`getSelectableProperty`: when it returned JS `undefined` the lookup
`element[undefined]` reads the (absent) property named "undefined". -/
def readProp (el : Element) (p : Option PropName) : JSVal :=
  match p with
  | none => .undef
  | some q => el.get q

/-- The body of `onChangedEvent` inside the `!this.isWritingValue` guard
(value-accessor.ts lines 242-277): the `switch` on the event type decides
`changed` (relevance to the resolved selectable property; `checked-changed`
and `value-changed` are always relevant), then the current value is read
directly from the resolved property on the element — never from the event's
`detail` payload — and forwarded to `onChange`.  Returns the updated state
and the list of values passed to `onChange`.  `getSelectableProperty` is
called without a value, so its probe cannot run and the `.error` branches
are unreachable (`getSelectableProperty_undef_ok`). -/
def handleChangedEvent (st : AccState) (el : Element) (ev : ChangeEventType)
    (payload : JSVal) : AccState × List JSVal :=
  let step :=
    match ev with
    | .selectedItemsChanged | .selectedItemChanged =>
        match getSelectableProperty st el .undef with
        | .ok (st1, el1, property) =>
            (st1, el1,
              property == some PropName.selectedItems ||
                property == some PropName.selectedItem)
        | .error (st1, el1) => (st1, el1, false)
    | .selectedValuesChanged | .selectedChanged =>
        match getSelectableProperty st el .undef with
        | .ok (st1, el1, property) =>
            (st1, el1,
              property == some PropName.selectedValues ||
                property == some PropName.selected)
        | .error (st1, el1) => (st1, el1, false)
    | .checkedChanged | .valueChanged => (st, el, true)
  match step with
  | (st1, el1, changed) =>
      if changed then
        if isMultiSelectable el1 || isSelectable el1 then
          match getSelectableProperty st1 el1 .undef with
          | .ok (st2, el2, property) => (st2, [readProp el2 property])
          | .error (st2, _) => (st2, [])
        else if isCheckedElement el1 then (st1, [el1.get .checked])
        else (st1, [el1.get .value])
      else (st1, [])

/-- Source `onChangedEvent(event)` (value-accessor.ts lines 240-279): the whole
body runs only when `isWritingValue` is not set. -/
def onChangedEvent (st : AccState) (el : Element) (ev : ChangeEventType)
    (payload : JSVal) : AccState × List JSVal :=
  if st.isWritingValue then (st, [])
  else handleChangedEvent st el ev payload

/-- Events the element dispatches synchronously from inside a write
assignment are handled by `onChangedEvent` at the in-write adapter state
`st`; the result is the list of values forwarded to `onChange`. -/
def dispatchEmitsDuringWrite (st : AccState) (el : Element)
    (emits : List (ChangeEventType × JSVal)) : List JSVal :=
  emits.flatMap fun e => (onChangedEvent st el e.1 e.2).2

/-- The relevance test: the `changed` flag computed by `onChangedEvent`'s
`switch` when the resolved selectable property is `p`. -/
def eventRelevant (ev : ChangeEventType) (p : Option PropName) : Bool :=
  match ev with
  | .selectedItemsChanged | .selectedItemChanged =>
      p == some PropName.selectedItems || p == some PropName.selectedItem
  | .selectedValuesChanged | .selectedChanged =>
      p == some PropName.selectedValues || p == some PropName.selected
  | .checkedChanged | .valueChanged => true

/-!
The build-config resolver (src/bin/lib/polyfill/util.ts).  The filesystem
and module loader are passed explicitly: `resolve` models `path.resolve`
on a path relative to the current working directory, `existsFile` models
`fs.exists`, `resolve2` models the two-argument `path.resolve(root, rel)`,
and `req` models `require` of a TypeScript config file.
-/

/-- A loaded tsconfig as `isEs5` sees it: `compilerOptions` and its
`target` field may each be absent, and `target` need not be a string. -/
structure CompilerOptionsJson where
  target : Option JSVal
deriving DecidableEq, Repr

/-- A loaded TypeScript configuration object. -/
structure TsConfigJson where
  compilerOptions : Option CompilerOptionsJson
deriving DecidableEq, Repr

/-- Source `AngularJsonProjectArchitectType`. -/
inductive ArchitectType where
  | build
  | test
deriving DecidableEq, Repr

/-- Source `AngularJsonProjectArchitect.options` (only `tsConfig` is used by the
queries modelled here). -/
structure AngularJsonProjectArchitect where
  tsConfig : String
deriving DecidableEq, Repr

/-- Source `AngularJsonProject`: the architect map may lack either target type. -/
structure AngularJsonProject where
  root : String
  architect : ArchitectType → Option AngularJsonProjectArchitect

/-- Source `AngularCliJsonApp` (the fields the es5 query uses). -/
structure AngularCliJsonApp where
  name : String
  root : String
  index : String
  tsconfig : String
deriving DecidableEq, Repr

/-- Source `getAngularJsonPath()` (util.ts lines 48-60): check the resolved
`./angular.json` first, then the resolved `./.angular-cli.json`, and
return the first that exists; throw (`Except.error` with the message)
when neither exists. -/
def getAngularJsonPath (resolve : String → String)
    (existsFile : String → Bool) : Except String String :=
  let angularJsonPath := resolve "./angular.json"
  let angularCliJsonPath := resolve "./.angular-cli.json"
  if existsFile angularJsonPath then .ok angularJsonPath
  else if existsFile angularCliJsonPath then .ok angularCliJsonPath
  else .error
    "Unable to find angular.json or .angular-cli.json in current directory"

/-- JS `String.prototype.toLowerCase`, modelled charwise. -/
def jsToLowerCase (s : String) : String :=
  String.mk (s.data.map Char.toLower)

/-- Source `isEs5(tsconfig)` (util.ts lines 99-101):
`tsconfig.compilerOptions.target.toLowerCase() === 'es5'`, dereferenced
without any guard: reading `target` of an absent `compilerOptions`, or
calling `toLowerCase` on an absent or non-string `target`, throws a
TypeError (`Except.error ()`). -/
def isEs5 (tsconfig : TsConfigJson) : Except Unit Bool :=
  match tsconfig.compilerOptions with
  | none => .error ()
  | some co =>
      match co.target with
      | some (JSVal.str t) => .ok (jsToLowerCase t == "es5")
      | _ => .error ()

/-- Source `isAngularJsonEs5(json, type)` (util.ts lines 78-92): when the project
has an architect entry for `type`, load its tsconfig (via `req` at the
path `resolve2 json.root tsConfig`) and defer to `isEs5`; otherwise
return `false` without loading anything. -/
def isAngularJsonEs5 (req : String → TsConfigJson)
    (resolve2 : String → String → String) (json : AngularJsonProject)
    (ty : ArchitectType) : Except Unit Bool :=
  match json.architect ty with
  | some architect => isEs5 (req (resolve2 json.root architect.tsConfig))
  | none => .ok false

/-- Source `isAngularCliJsonEs5(json)` (util.ts lines 94-97). -/
def isAngularCliJsonEs5 (req : String → TsConfigJson)
    (resolve2 : String → String → String) (json : AngularCliJsonApp) :
    Except Unit Bool :=
  isEs5 (req (resolve2 json.root json.tsconfig))

/-!
Concrete elements used as counterexamples and witnesses.
-/

/-- A plain single-selectable element exposing both `selected` and
`selectedItem` as ordinary data properties (every assignment stores the
assigned value). -/
def elBoth : Element :=
  { has := fun p => p = PropName.selected || p = PropName.selectedItem
    get := fun p => if p = PropName.selected then .num 0 else .undef
    setFn := fun _ _ v => some v }

/-- An element exposing both `selected` and `selectedItem` whose
`selectedItem` is a read-only accessor currently reporting `42`: every
assignment to it throws (as with a getter-only property or a frozen
object in strict mode). -/
def elFrozenItem : Element :=
  { has := fun p => p = PropName.selected || p = PropName.selectedItem
    get := fun p => if p = PropName.selectedItem then .num 42 else .undef
    setFn := fun p _ v =>
      if p = PropName.selectedItem then none else some v }

/-- An element exposing both properties whose `selectedItem` setter
coerces every assigned value to `0`; its current `selectedItem` is `1`. -/
def elCoerceItem : Element :=
  { has := fun p => p = PropName.selected || p = PropName.selectedItem
    get := fun p => if p = PropName.selectedItem then .num 1 else .undef
    setFn := fun p _ v =>
      if p = PropName.selectedItem then some (.num 0) else some v }

/-- An element with `multi === true` exposing `selectedItems` but not
`selectedValues` (plain data properties). -/
def elItemsOnly : Element :=
  { has := fun p => p = PropName.selectedItems
    get := fun p => if p = PropName.multi then .bool true else .undef
    setFn := fun _ _ v => some v }

/-- An element exposing only the index-property `selected`. -/
def elSelectedOnly : Element :=
  { has := fun p => p = PropName.selected
    get := fun p => if p = PropName.selected then .num 3 else .undef
    setFn := fun _ _ v => some v }

/-- An element exposing only the item-property `selectedItem`. -/
def elItemOnly : Element :=
  { has := fun p => p = PropName.selectedItem
    get := fun _ => .undef
    setFn := fun _ _ v => some v }

/-!
Helper lemmas.
-/

theorem Element.update_get_self (el : Element) (p : PropName) (w : JSVal) :
    (el.update p w).get p = w := by
  simp [Element.update]

theorem Element.update_get_ne (el : Element) (p q : PropName) (w : JSVal)
    (h : q ≠ p) : (el.update p w).get q = el.get q := by
  simp [Element.update, h]

theorem Element.update_setFn (el : Element) (p : PropName) (w : JSVal) :
    (el.update p w).setFn = el.setFn := rfl

theorem getSelectableProperty_memoized (st : AccState) (el : Element)
    (v : JSVal) (b : Bool) (h : st.useSelectableValueProp = some b) :
    getSelectableProperty st el v
      = .ok (st, el, some (if b then valuePropOf el else indexPropOf el)) := by
  unfold getSelectableProperty
  rw [h]

/-!
Claim theorems: the build-config resolver.
-/

/-- C3: the source `isMultiSelectable` tests `selectedValues` twice and
never tests `selectedItems`; an element with `multi === true` exposing
only `selectedItems` is therefore NOT classified as multi-selectable,
although the spec's classification (`isMultiSelectableSpec`) says it is. -/
theorem c3_multi_detection_bug :
    elItemsOnly.get .multi = .bool true
    ∧ elItemsOnly.has .selectedItems = true
    ∧ elItemsOnly.has .selectedValues = false
    ∧ isMultiSelectable elItemsOnly = false
    ∧ isMultiSelectableSpec elItemsOnly = true :=
  ⟨rfl, rfl, rfl, rfl, rfl⟩

/-- C8: `getAngularJsonPath` checks the resolved `angular.json` first and
`.angular-cli.json` second and returns the first that exists (so when both
exist, `angular.json` wins); when neither exists it throws an error whose
message names both candidate filenames. -/
theorem c8_getAngularJsonPath_order (resolve : String → String)
    (existsFile : String → Bool) :
    (existsFile (resolve "./angular.json") = true →
      getAngularJsonPath resolve existsFile = .ok (resolve "./angular.json"))
    ∧ (existsFile (resolve "./angular.json") = false →
        existsFile (resolve "./.angular-cli.json") = true →
        getAngularJsonPath resolve existsFile
          = .ok (resolve "./.angular-cli.json"))
    ∧ (existsFile (resolve "./angular.json") = false →
        existsFile (resolve "./.angular-cli.json") = false →
        getAngularJsonPath resolve existsFile
          = .error ("Unable to find " ++ "angular.json" ++ " or "
              ++ ".angular-cli.json" ++ " in current directory")) := by
  unfold getAngularJsonPath
  refine ⟨fun h1 => by simp [h1], fun h1 h2 => by simp [h1, h2],
    fun h1 h2 => by simp [h1, h2]⟩

/-- Witness for C8: with no file existing, the error naming both
candidates is thrown. -/
theorem c8_getAngularJsonPath_order_witness :
    (fun _ : String => false) ((fun s => "/cwd/" ++ s) "./angular.json") = false
    ∧ getAngularJsonPath (fun s => "/cwd/" ++ s) (fun _ => false)
        = .error ("Unable to find " ++ "angular.json" ++ " or "
            ++ ".angular-cli.json" ++ " in current directory") :=
  ⟨rfl, (c8_getAngularJsonPath_order (fun s => "/cwd/" ++ s)
    (fun _ => false)).2.2 rfl rfl⟩

/-- C9: the es5-mode queries compare the loaded config's target against
"es5" case-insensitively, and `isAngularJsonEs5` returns `false` without
loading any file (the result holds for every loader `req`) when the
project has no architect entry for the requested target type. -/
theorem c9_es5_case_insensitive (resolve2 : String → String → String)
    (json : AngularJsonProject) (ty : ArchitectType) :
    isEs5 ⟨some ⟨some (.str "ES5")⟩⟩ = .ok true
    ∧ isEs5 ⟨some ⟨some (.str "es5")⟩⟩ = .ok true
    ∧ isEs5 ⟨some ⟨some (.str "Es5")⟩⟩ = .ok true
    ∧ isEs5 ⟨some ⟨some (.str "ES2015")⟩⟩ = .ok false
    ∧ (∀ t : String, isEs5 ⟨some ⟨some (.str t)⟩⟩ = .ok (jsToLowerCase t == "es5"))
    ∧ (json.architect ty = none →
        ∀ req : String → TsConfigJson,
          isAngularJsonEs5 req resolve2 json ty = .ok false) := by
  refine ⟨rfl, rfl, rfl, rfl, fun t => rfl,
    fun h req => ?_⟩
  unfold isAngularJsonEs5
  rw [h]

/-- Witness for C9: a project without a `build` architect entry yields
`false` under an arbitrary loader. -/
theorem c9_es5_case_insensitive_witness :
    (⟨"approot", fun _ => none⟩ : AngularJsonProject).architect .build = none
    ∧ isAngularJsonEs5 (fun _ => ⟨none⟩) (fun r t => r ++ "/" ++ t)
        ⟨"approot", fun _ => none⟩ .build = .ok false :=
  ⟨rfl, (c9_es5_case_insensitive (fun r t => r ++ "/" ++ t)
    ⟨"approot", fun _ => none⟩ .build).2.2.2.2.2 rfl (fun _ => ⟨none⟩)⟩

/-- C10: `isEs5` dereferences `tsconfig.compilerOptions.target` without a
guard: it yields a boolean exactly under the precondition that
`compilerOptions` is an object with a string `target`; for a config
missing `compilerOptions` or `target` (or a non-string `target`) the
TypeError branch is reached, also through `isAngularCliJsonEs5`. -/
theorem c10_isEs5_unguarded :
    (∀ (cfg : TsConfigJson) (co : CompilerOptionsJson) (t : String),
        cfg.compilerOptions = some co → co.target = some (.str t) →
        isEs5 cfg = .ok (jsToLowerCase t == "es5"))
    ∧ isEs5 ⟨none⟩ = .error ()
    ∧ isEs5 ⟨some ⟨none⟩⟩ = .error ()
    ∧ isEs5 ⟨some ⟨some (.num 5)⟩⟩ = .error ()
    ∧ isAngularCliJsonEs5 (fun _ => ⟨none⟩) (fun r t => r ++ "/" ++ t)
        ⟨"app", "src", "index.html", "tsconfig.json"⟩ = .error () := by
  refine ⟨fun cfg co t h1 h2 => ?_, rfl, rfl, rfl, rfl⟩
  simp only [isEs5, h1, h2]

/-- Witness for C10: a well-shaped config yields a boolean. -/
theorem c10_isEs5_unguarded_witness :
    (⟨some ⟨some (.str "ES2015")⟩⟩ : TsConfigJson).compilerOptions
        = some ⟨some (.str "ES2015")⟩
    ∧ isEs5 ⟨some ⟨some (.str "ES2015")⟩⟩ = .ok (jsToLowerCase "ES2015" == "es5") :=
  ⟨rfl, c10_isEs5_unguarded.1 ⟨some ⟨some (.str "ES2015")⟩⟩
    ⟨some (.str "ES2015")⟩ "ES2015" rfl rfl⟩

/-!
Claim theorems: the form adapter's property-selection probe.
-/

/-- With no memoized decision, both properties exposed, and a concrete
value, `getSelectableProperty` runs the speculative probe. -/
theorem getSelectableProperty_probe (st : AccState) (el : Element)
    (value : JSVal) (hnd : st.useSelectableValueProp = none)
    (hvp : el.has (valuePropOf el) = true)
    (hip : el.has (indexPropOf el) = true)
    (hcv : isConcreteValue value = true) :
    getSelectableProperty st el value = probeSelectableProperty st el value := by
  unfold getSelectableProperty
  rw [hnd, hvp, hip]
  simp [hcv]

/-- Unfolded characterization of the probe: the decision is
`probeDecision`, and the restore assignment decides between a normal and
an exceptional return. -/
theorem probeSelectableProperty_eq (st : AccState) (el : Element)
    (value : JSVal) :
    probeSelectableProperty st el value
      = match (probeAfterSet el value).assign (valuePropOf el)
          (el.get (valuePropOf el)) with
        | none =>
            .error ({ st with
                useSelectableValueProp := some (probeDecision el value) },
              probeAfterSet el value)
        | some el2 =>
            .ok ({ st with
                useSelectableValueProp := some (probeDecision el value) },
              el2,
              some (if probeDecision el value then valuePropOf el
                else indexPropOf el)) := rfl

/-- C1 counterexample: `elFrozenItem` exposes both properties, its current
`selectedItem` is `42`, and assigning `selectedItem` throws.  Probing with
the value `42`: the speculative assignment throws (and is caught), but the
read-back — the unchanged prior value — strictly equals the value, so the
code memoizes the ITEM-property (`some true`), not the index-property as
the claim states; and the restore assignment, outside the catch, throws,
so the exception IS propagated to the caller.  The memoized decision makes
every later call return `selectedItem`. -/
theorem c1_counterexample :
    elFrozenItem.has .selectedItem = true
    ∧ elFrozenItem.has .selected = true
    ∧ elFrozenItem.get .selectedItem = .num 42
    ∧ elFrozenItem.setFn .selectedItem (.num 42) (.num 42) = none
    ∧ getSelectableProperty ⟨false, none⟩ elFrozenItem (.num 42)
        = .error (⟨false, some true⟩, elFrozenItem)
    ∧ getSelectableProperty ⟨false, some true⟩ elFrozenItem (.num 7)
        = .ok (⟨false, some true⟩, elFrozenItem, some .selectedItem) :=
  ⟨rfl, rfl, rfl, rfl, rfl, rfl⟩

/-- C1 (amended): with both properties exposed, no memoized decision and a
concrete value, the memoized decision — in the normal return AND in the
propagated-exception return — is item-property iff the read-back after the
speculative assignment strictly equals the value; the returned property
follows that decision; a caught throwing assignment leaves the read-back
at the prior value; and a memoized decision is returned by every
subsequent call. -/
theorem c1_probe_decision (st : AccState) (el : Element) (value : JSVal)
    (hnd : st.useSelectableValueProp = none)
    (hvp : el.has (valuePropOf el) = true)
    (hip : el.has (indexPropOf el) = true)
    (hcv : isConcreteValue value = true) :
    (∀ st1 el1 p, getSelectableProperty st el value = .ok (st1, el1, p) →
        st1.useSelectableValueProp = some (probeDecision el value)
          ∧ p = some (if probeDecision el value then valuePropOf el
              else indexPropOf el))
    ∧ (∀ st1 el1, getSelectableProperty st el value = .error (st1, el1) →
        st1.useSelectableValueProp = some (probeDecision el value))
    ∧ (el.setFn (valuePropOf el) (el.get (valuePropOf el)) value = none →
        (probeAfterSet el value).get (valuePropOf el)
          = el.get (valuePropOf el))
    ∧ (∀ (stM : AccState) (elM : Element) (b : Bool) (v2 : JSVal),
        stM.useSelectableValueProp = some b →
        getSelectableProperty stM elM v2
          = .ok (stM, elM, some (if b then valuePropOf elM
              else indexPropOf elM))) := by
  have hred := getSelectableProperty_probe st el value hnd hvp hip hcv
  refine ⟨?_, ?_, ?_, ?_⟩
  · intro st1 el1 p h
    rw [hred, probeSelectableProperty_eq] at h
    split at h
    · exact Except.noConfusion h
    · simp only [Except.ok.injEq, Prod.mk.injEq] at h
      obtain ⟨rfl, -, rfl⟩ := h
      exact ⟨rfl, rfl⟩
  · intro st1 el1 h
    rw [hred, probeSelectableProperty_eq] at h
    split at h
    · simp only [Except.error.injEq, Prod.mk.injEq] at h
      obtain ⟨rfl, -⟩ := h
      rfl
    · exact Except.noConfusion h
  · intro hthrow
    simp [probeAfterSet, Element.assign, hthrow]
  · intro stM elM b v2 hb
    exact getSelectableProperty_memoized stM elM v2 b hb

/-- Witness for C1: a plain element accepting the assignment; the probe
chooses the item-property and memoizes `some true`. -/
theorem c1_probe_decision_witness :
    getSelectableProperty ⟨false, none⟩ elBoth (.num 7)
      = .ok (⟨false, some true⟩,
          (elBoth.update .selectedItem (.num 7)).update .selectedItem .undef,
          some .selectedItem)
    ∧ ((⟨false, some true⟩ : AccState).useSelectableValueProp
          = some (probeDecision elBoth (.num 7))
        ∧ some PropName.selectedItem
          = some (if probeDecision elBoth (.num 7) then valuePropOf elBoth
              else indexPropOf elBoth)) :=
  ⟨rfl, (c1_probe_decision ⟨false, none⟩ elBoth (.num 7) rfl rfl rfl rfl).1
    ⟨false, some true⟩
    ((elBoth.update .selectedItem (.num 7)).update .selectedItem .undef)
    (some .selectedItem) rfl⟩

/-- C2 counterexample: `elCoerceItem` exposes both properties, its
`selectedItem` setter coerces every assigned value to `0`, and its current
`selectedItem` is `1`.  The probe with value `42` returns normally, yet
the element's `selectedItem` afterwards is `0`, not the prior `1`: the
restore assignment went through the same coercing setter. -/
theorem c2_counterexample :
    elCoerceItem.get .selectedItem = .num 1
    ∧ (match getSelectableProperty ⟨false, none⟩ elCoerceItem (.num 42) with
       | .ok (_, el1, _) => el1.get .selectedItem
       | .error (_, el1) => el1.get .selectedItem) = .num 0
    ∧ JSVal.num 0 ≠ JSVal.num 1 :=
  ⟨rfl, rfl, by decide⟩

/-- C2 (amended): provided assigning the item-property its prior value
stores exactly that prior value without throwing (as with an ordinary
data property or a silently-rejecting setter), the probe returns normally
and the item-property's value after `getSelectableProperty` returns equals
its value before the probe began, whichever way the probe decided. -/
theorem c2_probe_restores (st : AccState) (el : Element) (value : JSVal)
    (hnd : st.useSelectableValueProp = none)
    (hvp : el.has (valuePropOf el) = true)
    (hip : el.has (indexPropOf el) = true)
    (hcv : isConcreteValue value = true)
    (hres : ∀ s : JSVal, el.setFn (valuePropOf el) s (el.get (valuePropOf el))
        = some (el.get (valuePropOf el))) :
    ∃ st1 el1 p, getSelectableProperty st el value = .ok (st1, el1, p)
      ∧ el1.get (valuePropOf el) = el.get (valuePropOf el) := by
  rw [getSelectableProperty_probe st el value hnd hvp hip hcv]
  unfold probeSelectableProperty
  cases hA : el.setFn (valuePropOf el) (el.get (valuePropOf el)) value with
  | none =>
      simp only [Element.assign, hA, Option.map_none', Option.getD_none,
        hres (el.get (valuePropOf el)), Option.map_some', Option.getD_some]
      exact ⟨_, _, _, rfl, Element.update_get_self el _ _⟩
  | some w =>
      simp only [Element.assign, hA, Option.map_some', Option.getD_some,
        Element.update_setFn, Element.update_get_self, hres w]
      exact ⟨_, _, _, rfl, Element.update_get_self _ _ _⟩

/-- Witness for C2: the plain element `elBoth` is restored (its
`selectedItem` was `undefined` before and after the probe). -/
theorem c2_probe_restores_witness :
    ∃ st1 el1 p, getSelectableProperty ⟨false, none⟩ elBoth (.num 7)
        = .ok (st1, el1, p)
      ∧ el1.get (valuePropOf elBoth) = elBoth.get (valuePropOf elBoth) :=
  c2_probe_restores ⟨false, none⟩ elBoth (.num 7) rfl rfl rfl rfl
    (fun _ => rfl)

/-- C6: with both properties exposed and no decision memoized, a write of
`undefined` or `null` is a silent no-op: no element property is assigned,
no exception is raised, and the undecided state is preserved (only the
guard flag ends lowered, as on every completed write). -/
theorem c6_undecided_write_noop (st : AccState) (el : Element) (value : JSVal)
    (hnd : st.useSelectableValueProp = none)
    (hvp : el.has (valuePropOf el) = true)
    (hip : el.has (indexPropOf el) = true)
    (hv : value = JSVal.undef ∨ value = JSVal.null) :
    writeValue st el value = .ok ({ st with isWritingValue := false }, el) := by
  have hcv2 : isConcreteValue value = false := by
    rcases hv with rfl | rfl <;> rfl
  have hb : (isMultiSelectable el || isSelectable el) = true := by
    cases hm : isMultiSelectable el with
    | true => rfl
    | false =>
        have h2 : indexPropOf el = PropName.selected := by
          simp [indexPropOf, hm]
        rw [h2] at hip
        simp [hm, isSelectable, isPropertyDefined, hip]
  have hgsp : getSelectableProperty { st with isWritingValue := true } el value
      = .ok ({ st with isWritingValue := true }, el, none) := by
    unfold getSelectableProperty
    rw [show ({ st with isWritingValue := true } : AccState).useSelectableValueProp
        = (none : Option Bool) from hnd]
    rw [hvp, hip]
    simp [hcv2]
  simp only [writeValue, hb, if_true, hgsp]

/-- Witness for C6: a write of `undefined` to the undecided two-property
element leaves it untouched. -/
theorem c6_undecided_write_noop_witness :
    writeValue ⟨false, none⟩ elBoth .undef = .ok (⟨false, none⟩, elBoth) :=
  c6_undecided_write_noop ⟨false, none⟩ elBoth .undef rfl rfl rfl (Or.inl rfl)

/-- With a memoized decision, `writeValue` on a selectable element assigns
the chosen property and nothing else. -/
theorem writeValue_memoized (st : AccState) (el : Element) (v : JSVal)
    (b : Bool) (hb : st.useSelectableValueProp = some b)
    (hsel : (isMultiSelectable el || isSelectable el) = true) :
    writeValue st el v
      = match el.assign (if b then valuePropOf el else indexPropOf el) v with
        | none => .error ({ st with isWritingValue := true }, el)
        | some el2 => .ok ({ st with isWritingValue := false }, el2) := by
  have hg := getSelectableProperty_memoized
    { st with isWritingValue := true } el v b hb
  rw [hb] at hg
  simp only [writeValue, hb, hsel, if_true, hg]

/-- C7: for an element exposing exactly one of the two candidate
properties, the first call to `getSelectableProperty` chooses the exposed
one and memoizes the decision without touching the element; every call
with a memoized decision returns the decided property; and a `writeValue`
under a memoized decision changes no element property other than the
decided one. -/
theorem c7_single_prop_choice (st : AccState) (el : Element) (v : JSVal) :
    (st.useSelectableValueProp = none → el.has (valuePropOf el) = true →
      el.has (indexPropOf el) = false →
      getSelectableProperty st el v
        = .ok ({ st with useSelectableValueProp := some true }, el,
            some (valuePropOf el)))
    ∧ (st.useSelectableValueProp = none → el.has (valuePropOf el) = false →
      el.has (indexPropOf el) = true →
      getSelectableProperty st el v
        = .ok ({ st with useSelectableValueProp := some false }, el,
            some (indexPropOf el)))
    ∧ (∀ b : Bool, st.useSelectableValueProp = some b →
      getSelectableProperty st el v
        = .ok (st, el, some (if b then valuePropOf el else indexPropOf el)))
    ∧ (∀ b : Bool, st.useSelectableValueProp = some b →
      (isMultiSelectable el || isSelectable el) = true →
      ∀ q : PropName, q ≠ (if b then valuePropOf el else indexPropOf el) →
        (match writeValue st el v with
         | .ok (_, el2) => el2.get q
         | .error (_, el2) => el2.get q) = el.get q) := by
  refine ⟨?_, ?_, ?_, ?_⟩
  · intro hnd hvp hip
    simp [getSelectableProperty, hnd, hvp, hip]
  · intro hnd hvp hip
    simp [getSelectableProperty, hnd, hvp, hip]
  · intro b hb
    exact getSelectableProperty_memoized st el v b hb
  · intro b hb hsel q hq
    rw [writeValue_memoized st el v b hb hsel]
    cases hA : el.assign (if b then valuePropOf el else indexPropOf el) v with
    | none => rfl
    | some el2 =>
        simp only [Element.assign, Option.map_eq_some'] at hA
        obtain ⟨w, -, rfl⟩ := hA
        exact Element.update_get_ne el _ q w hq

/-- Witness for C7: `elItemOnly` exposes only `selectedItem`; the first
call chooses it, and a later write under the memoized decision leaves
`selected` untouched. -/
theorem c7_single_prop_choice_witness :
    getSelectableProperty ⟨false, none⟩ elItemOnly (.str "x")
      = .ok (⟨false, some true⟩, elItemOnly, some (valuePropOf elItemOnly))
    ∧ (match writeValue ⟨false, some true⟩ elItemOnly (.str "x") with
       | .ok (_, el2) => el2.get .selected
       | .error (_, el2) => el2.get .selected) = elItemOnly.get .selected :=
  ⟨(c7_single_prop_choice ⟨false, none⟩ elItemOnly (.str "x")).1 rfl rfl rfl,
   (c7_single_prop_choice ⟨false, some true⟩ elItemOnly (.str "x")).2.2.2
     true rfl rfl .selected (by decide)⟩

/-!
Helper lemmas for the change-event claims.
-/

/-- With only the item-property exposed, the first call decides for it. -/
theorem getSelectableProperty_vp_only (st : AccState) (el : Element)
    (v : JSVal) (hnd : st.useSelectableValueProp = none)
    (hvp : el.has (valuePropOf el) = true)
    (hip : el.has (indexPropOf el) = false) :
    getSelectableProperty st el v
      = .ok ({ st with useSelectableValueProp := some true }, el,
          some (valuePropOf el)) := by
  simp [getSelectableProperty, hnd, hvp, hip]

/-- With only the index-property exposed, the first call decides for it. -/
theorem getSelectableProperty_ip_only (st : AccState) (el : Element)
    (v : JSVal) (hnd : st.useSelectableValueProp = none)
    (hvp : el.has (valuePropOf el) = false)
    (hip : el.has (indexPropOf el) = true) :
    getSelectableProperty st el v
      = .ok ({ st with useSelectableValueProp := some false }, el,
          some (indexPropOf el)) := by
  simp [getSelectableProperty, hnd, hvp, hip]

/-- With no decision, neither single-property case applying, and no
concrete value, the call returns undecided and changes nothing. -/
theorem getSelectableProperty_pending (st : AccState) (el : Element)
    (v : JSVal) (hnd : st.useSelectableValueProp = none)
    (heq : el.has (valuePropOf el) = el.has (indexPropOf el))
    (hcv : isConcreteValue v = false) :
    getSelectableProperty st el v = .ok (st, el, none) := by
  cases hvp : el.has (valuePropOf el) with
  | true =>
      rw [hvp] at heq
      simp [getSelectableProperty, hnd, hvp, heq.symm, hcv]
  | false =>
      rw [hvp] at heq
      simp [getSelectableProperty, hnd, hvp, heq.symm, hcv]

/-- Every result of `getSelectableProperty` carries either the input state
unchanged or the input state with only the decision field set; in
particular the `isWritingValue` guard is never modified by it. -/
theorem getSelectableProperty_state_shape (st : AccState) (el : Element)
    (v : JSVal) :
    getSelectableProperty st el v = .ok (st, el, none)
    ∨ (∃ d el1 p, getSelectableProperty st el v
        = .ok ({ st with useSelectableValueProp := some d }, el1, p))
    ∨ (∃ d el1, getSelectableProperty st el v
        = .error ({ st with useSelectableValueProp := some d }, el1)) := by
  cases hb : st.useSelectableValueProp with
  | some b =>
      have hst : ({ st with useSelectableValueProp := some b } : AccState)
          = st := by
        cases st
        simp only at hb
        rw [hb]
      refine Or.inr (Or.inl ⟨b, el,
        some (if b then valuePropOf el else indexPropOf el), ?_⟩)
      rw [hst]
      exact getSelectableProperty_memoized st el v b hb
  | none =>
      cases hvp : el.has (valuePropOf el) <;> cases hip : el.has (indexPropOf el)
      · cases hcv : isConcreteValue v with
        | false => exact Or.inl (getSelectableProperty_pending st el v hb
            (by rw [hvp, hip]) hcv)
        | true =>
            have hred : getSelectableProperty st el v
                = probeSelectableProperty st el v := by
              simp [getSelectableProperty, hb, hvp, hip, hcv]
            rw [hred, probeSelectableProperty_eq]
            cases hA : (probeAfterSet el v).assign (valuePropOf el)
                (el.get (valuePropOf el)) with
            | none => exact Or.inr (Or.inr ⟨probeDecision el v,
                probeAfterSet el v, rfl⟩)
            | some el2 => exact Or.inr (Or.inl ⟨probeDecision el v, el2,
                _, rfl⟩)
      · exact Or.inr (Or.inl ⟨false, el, _,
          getSelectableProperty_ip_only st el v hb hvp hip⟩)
      · exact Or.inr (Or.inl ⟨true, el, _,
          getSelectableProperty_vp_only st el v hb hvp hip⟩)
      · cases hcv : isConcreteValue v with
        | false => exact Or.inl (getSelectableProperty_pending st el v hb
            (by rw [hvp, hip]) hcv)
        | true =>
            have hred : getSelectableProperty st el v
                = probeSelectableProperty st el v := by
              simp [getSelectableProperty, hb, hvp, hip, hcv]
            rw [hred, probeSelectableProperty_eq]
            cases hA : (probeAfterSet el v).assign (valuePropOf el)
                (el.get (valuePropOf el)) with
            | none => exact Or.inr (Or.inr ⟨probeDecision el v,
                probeAfterSet el v, rfl⟩)
            | some el2 => exact Or.inr (Or.inl ⟨probeDecision el v, el2,
                _, rfl⟩)

/-- A valueless `getSelectableProperty` call (as made from the change-event
handler) leaves the element unchanged, and a repeated call from the
returned state returns the same result. -/
theorem getSelectableProperty_undef_spec (st st1 : AccState)
    (el el1 : Element) (prop : Option PropName)
    (h : getSelectableProperty st el .undef = .ok (st1, el1, prop)) :
    el1 = el ∧ getSelectableProperty st1 el .undef = .ok (st1, el1, prop) := by
  cases hb : st.useSelectableValueProp with
  | some b =>
      rw [getSelectableProperty_memoized st el .undef b hb] at h
      simp only [Except.ok.injEq, Prod.mk.injEq] at h
      obtain ⟨rfl, rfl, rfl⟩ := h
      exact ⟨rfl, getSelectableProperty_memoized st el .undef b hb⟩
  | none =>
      cases hvp : el.has (valuePropOf el) <;> cases hip : el.has (indexPropOf el)
      · rw [getSelectableProperty_pending st el .undef hb
          (by rw [hvp, hip]) rfl] at h
        simp only [Except.ok.injEq, Prod.mk.injEq] at h
        obtain ⟨rfl, rfl, rfl⟩ := h
        exact ⟨rfl, getSelectableProperty_pending st el .undef hb
          (by rw [hvp, hip]) rfl⟩
      · rw [getSelectableProperty_ip_only st el .undef hb hvp hip] at h
        simp only [Except.ok.injEq, Prod.mk.injEq] at h
        obtain ⟨rfl, rfl, rfl⟩ := h
        refine ⟨rfl, ?_⟩
        simpa using getSelectableProperty_memoized
          { st with useSelectableValueProp := some false } el .undef false rfl
      · rw [getSelectableProperty_vp_only st el .undef hb hvp hip] at h
        simp only [Except.ok.injEq, Prod.mk.injEq] at h
        obtain ⟨rfl, rfl, rfl⟩ := h
        refine ⟨rfl, ?_⟩
        simpa using getSelectableProperty_memoized
          { st with useSelectableValueProp := some true } el .undef true rfl
      · rw [getSelectableProperty_pending st el .undef hb
          (by rw [hvp, hip]) rfl] at h
        simp only [Except.ok.injEq, Prod.mk.injEq] at h
        obtain ⟨rfl, rfl, rfl⟩ := h
        exact ⟨rfl, getSelectableProperty_pending st el .undef hb
          (by rw [hvp, hip]) rfl⟩

/-- Inside the guard, the change-event handler is a complete no-op. -/
theorem onChangedEvent_suppressed (st : AccState) (el : Element)
    (ev : ChangeEventType) (payload : JSVal) (h : st.isWritingValue = true) :
    onChangedEvent st el ev payload = (st, []) := by
  simp [onChangedEvent, h]

/-- A `writeValue` call that returns normally has lowered the guard. -/
theorem writeValue_ok_guard_cleared (st : AccState) (el : Element) (v : JSVal)
    (st1 : AccState) (el1 : Element) (h : writeValue st el v = .ok (st1, el1)) :
    st1.isWritingValue = false := by
  unfold writeValue at h
  dsimp only at h
  split at h
  · split at h
    · exact Except.noConfusion h
    · split at h
      · exact Except.noConfusion h
      · simp only [Except.ok.injEq, Prod.mk.injEq] at h
        obtain ⟨rfl, -⟩ := h
        rfl
    · simp only [Except.ok.injEq, Prod.mk.injEq] at h
      obtain ⟨rfl, -⟩ := h
      rfl
  · split at h
    · split at h
      · exact Except.noConfusion h
      · simp only [Except.ok.injEq, Prod.mk.injEq] at h
        obtain ⟨rfl, -⟩ := h
        rfl
    · split at h
      · exact Except.noConfusion h
      · simp only [Except.ok.injEq, Prod.mk.injEq] at h
        obtain ⟨rfl, -⟩ := h
        rfl

/-- C4: a change notification handled while the `isWritingValue` guard is
set is a complete no-op (zero `onChange` calls, no state change), so
events an element dispatches synchronously during a write forward
nothing; `getSelectableProperty` never modifies the guard, so the guard
stays set throughout the write; every normally-returning `writeValue`
ends with the guard lowered; and with the guard lowered `onChangedEvent`
runs its normal handler. -/
theorem c4_write_guard (st : AccState) (el : Element) (v payload : JSVal)
    (ev : ChangeEventType) (emits : List (ChangeEventType × JSVal)) :
    (∀ stW : AccState, stW.isWritingValue = true →
        onChangedEvent stW el ev payload = (stW, [])
          ∧ dispatchEmitsDuringWrite stW el emits = [])
    ∧ (∀ (stA : AccState) (elA : Element) (st1 : AccState) (el1 : Element)
          (p : Option PropName),
        getSelectableProperty stA elA v = .ok (st1, el1, p) →
          st1.isWritingValue = stA.isWritingValue)
    ∧ (∀ (stA : AccState) (elA : Element) (st1 : AccState) (el1 : Element),
        getSelectableProperty stA elA v = .error (st1, el1) →
          st1.isWritingValue = stA.isWritingValue)
    ∧ (∀ (st1 : AccState) (el1 : Element),
        writeValue st el v = .ok (st1, el1) → st1.isWritingValue = false)
    ∧ (st.isWritingValue = false →
        onChangedEvent st el ev payload = handleChangedEvent st el ev payload) := by
  refine ⟨?_, ?_, ?_, ?_, ?_⟩
  · intro stW hW
    refine ⟨onChangedEvent_suppressed stW el ev payload hW, ?_⟩
    induction emits with
    | nil => rfl
    | cons e rest ih =>
        show (onChangedEvent stW el e.1 e.2).2
            ++ dispatchEmitsDuringWrite stW el rest = []
        rw [onChangedEvent_suppressed stW el e.1 e.2 hW, ih]
        rfl
  · intro stA elA st1 el1 p h
    rcases getSelectableProperty_state_shape stA elA v with
      hs | ⟨d, e1, p1, hs⟩ | ⟨d, e1, hs⟩
    · rw [hs] at h
      simp only [Except.ok.injEq, Prod.mk.injEq] at h
      obtain ⟨rfl, -, -⟩ := h
      rfl
    · rw [hs] at h
      simp only [Except.ok.injEq, Prod.mk.injEq] at h
      obtain ⟨rfl, -, -⟩ := h
      rfl
    · rw [hs] at h
      exact Except.noConfusion h
  · intro stA elA st1 el1 h
    rcases getSelectableProperty_state_shape stA elA v with
      hs | ⟨d, e1, p1, hs⟩ | ⟨d, e1, hs⟩
    · rw [hs] at h
      exact Except.noConfusion h
    · rw [hs] at h
      exact Except.noConfusion h
    · rw [hs] at h
      simp only [Except.error.injEq, Prod.mk.injEq] at h
      obtain ⟨rfl, -⟩ := h
      rfl
  · intro st1 el1 h
    exact writeValue_ok_guard_cleared st el v st1 el1 h
  · intro hw
    simp [onChangedEvent, hw]

/-- Witness for C4: during a write the handler forwards nothing; a
completed concrete write leaves the guard lowered; and with the guard
lowered the normal handler runs. -/
theorem c4_write_guard_witness :
    (onChangedEvent ⟨true, none⟩ elItemOnly .valueChanged (.num 9)
        = (⟨true, none⟩, [])
      ∧ dispatchEmitsDuringWrite ⟨true, none⟩ elItemOnly
          [(.valueChanged, .num 9)] = [])
    ∧ ((⟨false, some true⟩ : AccState).isWritingValue = false)
    ∧ (onChangedEvent ⟨false, none⟩ elItemOnly .valueChanged (.num 9)
        = handleChangedEvent ⟨false, none⟩ elItemOnly .valueChanged (.num 9)) :=
  ⟨(c4_write_guard ⟨false, none⟩ elItemOnly (.str "x") (.num 9) .valueChanged
      [(.valueChanged, .num 9)]).1 ⟨true, none⟩ rfl,
   (c4_write_guard ⟨false, none⟩ elItemOnly (.str "x") (.num 9) .valueChanged
      [(.valueChanged, .num 9)]).2.2.2.1 ⟨false, some true⟩
      (elItemOnly.update .selectedItem (.str "x")) rfl,
   (c4_write_guard ⟨false, none⟩ elItemOnly (.str "x") (.num 9) .valueChanged
      [(.valueChanged, .num 9)]).2.2.2.2 rfl⟩

/-- C5: outside a write, for the four selection-change notifications on a
selectable or multi-selectable element, the handler forwards a value iff
the notification matches the resolved property's group, the forwarded
value is read from the resolved property on the element itself, and the
result does not depend on the event's payload. -/
theorem c5_change_relevance (st st1 : AccState) (el el1 : Element)
    (prop : Option PropName) (ev : ChangeEventType) (payload payload2 : JSVal)
    (hw : st.isWritingValue = false)
    (hsel : (isMultiSelectable el || isSelectable el) = true)
    (hev : ev = .selectedItemsChanged ∨ ev = .selectedItemChanged
      ∨ ev = .selectedValuesChanged ∨ ev = .selectedChanged)
    (hres : getSelectableProperty st el .undef = .ok (st1, el1, prop)) :
    onChangedEvent st el ev payload
      = (st1, if eventRelevant ev prop then [readProp el prop] else [])
    ∧ onChangedEvent st el ev payload = onChangedEvent st el ev payload2 := by
  obtain ⟨h1, hidem⟩ :=
    getSelectableProperty_undef_spec st st1 el el1 prop hres
  rw [h1] at hres hidem
  refine ⟨?_, rfl⟩
  have hhandle : onChangedEvent st el ev payload
      = handleChangedEvent st el ev payload := by
    simp [onChangedEvent, hw]
  rw [hhandle]
  rcases hev with rfl | rfl | rfl | rfl
  · cases hrel : (prop == some PropName.selectedItems
        || prop == some PropName.selectedItem) with
    | true => simp [handleChangedEvent, hres, hidem, hrel, hsel, eventRelevant]
    | false => simp [handleChangedEvent, hres, hrel, eventRelevant]
  · cases hrel : (prop == some PropName.selectedItems
        || prop == some PropName.selectedItem) with
    | true => simp [handleChangedEvent, hres, hidem, hrel, hsel, eventRelevant]
    | false => simp [handleChangedEvent, hres, hrel, eventRelevant]
  · cases hrel : (prop == some PropName.selectedValues
        || prop == some PropName.selected) with
    | true => simp [handleChangedEvent, hres, hidem, hrel, hsel, eventRelevant]
    | false => simp [handleChangedEvent, hres, hrel, eventRelevant]
  · cases hrel : (prop == some PropName.selectedValues
        || prop == some PropName.selected) with
    | true => simp [handleChangedEvent, hres, hidem, hrel, hsel, eventRelevant]
    | false => simp [handleChangedEvent, hres, hrel, eventRelevant]

/-- Witness for C5: a `selected-changed` event on the index-only element
forwards the element's `selected` value; the irrelevant
`selected-item-changed` event forwards nothing. -/
theorem c5_change_relevance_witness :
    onChangedEvent ⟨false, none⟩ elSelectedOnly .selectedChanged (.num 1)
      = (⟨false, some false⟩,
          if eventRelevant .selectedChanged (some .selected)
          then [readProp elSelectedOnly (some .selected)] else [])
    ∧ onChangedEvent ⟨false, none⟩ elSelectedOnly .selectedItemChanged (.num 1)
      = (⟨false, some false⟩,
          if eventRelevant .selectedItemChanged (some .selected)
          then [readProp elSelectedOnly (some .selected)] else []) :=
  ⟨(c5_change_relevance ⟨false, none⟩ ⟨false, some false⟩ elSelectedOnly
      elSelectedOnly (some .selected) .selectedChanged (.num 1) (.num 2)
      rfl rfl (Or.inr (Or.inr (Or.inr rfl))) rfl).1,
   (c5_change_relevance ⟨false, none⟩ ⟨false, some false⟩ elSelectedOnly
      elSelectedOnly (some .selected) .selectedItemChanged (.num 1) (.num 2)
      rfl rfl (Or.inr (Or.inl rfl)) rfl).1⟩
